import Mathlib

set_option maxRecDepth 10000

set_option exponentiation.threshold 2000

/-!
Verification embedding of the NRS accounting scraper
(`nrs_scraper.py` / `nrs_daily_vendor_sales.py`).

The two Python modules are translated shallowly:

* Pure helpers (`_parse_currency`, `_parse_percent`, `_parse_int`,
  `_build_date_params`, `_build_pdf_url`) become Lean functions of the
  same name (leading underscores dropped).
* Python `float(...)` / `int(...)` applied to strings are modelled by
  executable parsers `pyFloatOfChars` / `pyIntOfChars` that follow the
  CPython grammar for ASCII inputs: optional surrounding whitespace,
  optional sign, `inf`/`infinity`/`nan` (case-insensitive, floats only),
  decimal digits with underscores allowed between digits, optional
  fraction and exponent.  A failing parse is `none` (Python raises
  `ValueError`, which the callers catch).  Finite float values are kept
  as exact rationals; values at or beyond the binary64 overflow
  threshold become infinities, exactly as CPython's string-to-float
  conversion does.  (CPython additionally maps Unicode decimal digits
  and spaces to ASCII before parsing; every input appearing in the
  claims is ASCII, so that preprocessing is out of scope here.)
* HTML documents are represented by the structure BeautifulSoup exposes
  to the scraper: the optional `ListSectionTable` table as a list of
  `Hover` rows, each row carrying the stripped text of its `td` cells
  and the `href` values of its `a[href]` anchors in document order.
* Network traffic is explicit: each session method receives the response
  the transport would deliver and returns, besides its result, the list
  of HTTP requests it issued.
-/

/-- Python float values as the scraper observes them: a finite value
(kept as an exact rational), a signed infinity, or NaN. -/
inductive PyFloat where
  | pfinite (q : ℚ)
  | pinf (neg : Bool)
  | pnan
deriving DecidableEq, Repr

/-- Exact rational addition, phrased through `mkRat` so that concrete
values reduce inside the kernel. -/
def qAdd (a b : ℚ) : ℚ :=
  mkRat (a.num * (b.den : Int) + b.num * (a.den : Int)) (a.den * b.den)

/-- Exact rational multiplication through `mkRat`. -/
def qMul (a b : ℚ) : ℚ :=
  mkRat (a.num * b.num) (a.den * b.den)

/-- Smallest magnitude that CPython's string-to-float conversion rounds
to infinity (the binary64 round-to-nearest overflow threshold). -/
def ovThreshold : ℚ := mkRat ((2 ^ 1024 - 2 ^ 970 : Nat) : Int) 1

/-- Characters Python's `str.strip()` (no argument) removes, restricted
to ASCII whitespace. -/
def isPyWS (c : Char) : Bool :=
  c = ' ' || c = '\t' || c = '\n' || c = '\r' || c = '\x0b' || c = '\x0c'

/-- Drop leading Python whitespace. -/
def dropWS : List Char → List Char
  | [] => []
  | c :: t => if isPyWS c then dropWS t else c :: t

/-- Strip Python whitespace from both ends. -/
def stripWS (l : List Char) : List Char :=
  ((dropWS ((dropWS l).reverse)).reverse)

/-- Continue a digit group after at least one digit has been consumed:
further digits, with single underscores allowed between digits (the
CPython numeric-literal underscore rule). Returns the digits (without
underscores) and the unconsumed rest. -/
def digitsMore : List Char → List Char × List Char
  | [] => ([], [])
  | '_' :: c :: rest =>
      if c.isDigit then
        let p := digitsMore rest
        (c :: p.1, p.2)
      else ([], '_' :: c :: rest)
  | c :: rest =>
      if c.isDigit then
        let p := digitsMore rest
        (c :: p.1, p.2)
      else ([], c :: rest)

/-- Parse an optional digit group (`digit (("_")? digit)*`).  Returns
`([], l)` when `l` does not start with a digit. -/
def optDigits : List Char → List Char × List Char
  | [] => ([], [])
  | c :: rest =>
      if c.isDigit then
        let p := digitsMore rest
        (c :: p.1, p.2)
      else ([], c :: rest)

/-- Numeric value of a list of decimal digit characters. -/
def natOfDigits (l : List Char) : Nat :=
  l.foldl (fun a c => a * 10 + (c.toNat - 48)) 0

/-- Value of `intpart.fracpart` as an exact rational. -/
def decVal (ip fp : List Char) : ℚ :=
  mkRat (natOfDigits (ip ++ fp) : Int) (10 ^ fp.length)

/-- Multiply an exact rational by ten to an integer power. -/
def mulPow10 (m : ℚ) (e : Int) : ℚ :=
  if 0 ≤ e then qMul m (mkRat ((10 ^ e.toNat : Nat) : Int) 1)
  else qMul m (mkRat 1 (10 ^ (-e).toNat))

/-- Parse the mantissa part of a float literal: `digits`, `digits.`,
`digits.digits` or `.digits`; at least one digit is required. -/
def parseDecimal (l : List Char) : Option (ℚ × List Char) :=
  let p := optDigits l
  match p.2 with
  | '.' :: r =>
      let q := optDigits r
      if p.1 = [] ∧ q.1 = [] then none
      else some (decVal p.1 q.1, q.2)
  | _ => if p.1 = [] then none else some (decVal p.1 [], p.2)

/-- Parse an optional exponent part `('e'|'E') ('+'|'-')? digits`.
When no `e`/`E` is present, consumes nothing and yields exponent 0. -/
def parseExpPart (l : List Char) : Option (Int × List Char) :=
  match l with
  | [] => some (0, [])
  | c :: rest =>
      if c = 'e' || c = 'E' then
        let sr : Bool × List Char :=
          match rest with
          | '+' :: r => (false, r)
          | '-' :: r => (true, r)
          | r => (false, r)
        let d := optDigits sr.2
        if d.1 = [] then none
        else some ((if sr.1 then -(natOfDigits d.1 : Int) else (natOfDigits d.1 : Int)), d.2)
      else some (0, c :: rest)

/-- Model of CPython `float(s)` for ASCII strings, as a list of
characters: `none` models `ValueError`. -/
def pyFloatOfChars (l0 : List Char) : Option PyFloat :=
  let l1 := stripWS l0
  let sl : Bool × List Char :=
    match l1 with
    | '+' :: r => (false, r)
    | '-' :: r => (true, r)
    | r => (false, r)
  let low := sl.2.map Char.toLower
  if low = "inf".toList ∨ low = "infinity".toList then some (.pinf sl.1)
  else if low = "nan".toList then some .pnan
  else
    match parseDecimal sl.2 with
    | none => none
    | some (m, r1) =>
        match parseExpPart r1 with
        | none => none
        | some (e, r2) =>
            if r2 = [] then
              let q0 := mulPow10 m e
              let q := if sl.1 then -q0 else q0
              if q ≤ -ovThreshold ∨ ovThreshold ≤ q then some (.pinf sl.1)
              else some (.pfinite q)
            else none

/-- Model of CPython `int(s)` for ASCII strings: `none` models
`ValueError`. -/
def pyIntOfChars (l0 : List Char) : Option Int :=
  let l1 := stripWS l0
  let sl : Bool × List Char :=
    match l1 with
    | '+' :: r => (false, r)
    | '-' :: r => (true, r)
    | r => (false, r)
  let d := optDigits sl.2
  if d.1 = [] then none
  else if d.2 = [] then
    some (if sl.1 then -(natOfDigits d.1 : Int) else (natOfDigits d.1 : Int))
  else none

/-- The residue `value.replace('$', '').replace(',', '')` that
`_parse_currency` hands to `float()`. -/
def currencyStrip (s : String) : List Char :=
  (s.toList.filter (fun c => c ≠ '$')).filter (fun c => c ≠ ',')

/-- `NRSScraper._parse_currency` / `NRSVendorSales._parse_currency`
(identical code): removes every `$` and `,`, converts with `float()`,
and absorbs `ValueError`/`AttributeError` (the `none` input) to `0.0`. -/
def parse_currency (v : Option String) : PyFloat :=
  match v with
  | none => .pfinite 0
  | some s =>
      match pyFloatOfChars (currencyStrip s) with
      | none => .pfinite 0
      | some x => x

/-- `NRSScraper._parse_percent`: removes every `%`, converts with
`float()`, absorbing failures to `0.0`. -/
def parse_percent (v : Option String) : PyFloat :=
  match v with
  | none => .pfinite 0
  | some s =>
      match pyFloatOfChars (s.toList.filter (fun c => c ≠ '%')) with
      | none => .pfinite 0
      | some x => x

/-- `NRSScraper._parse_int`: removes every `,`, converts with `int()`,
absorbing failures to `0`. -/
def parse_int (v : Option String) : Int :=
  match v with
  | none => 0
  | some s =>
      match pyIntOfChars (s.toList.filter (fun c => c ≠ ',')) with
      | none => 0
      | some n => n

/-- Does `needle` occur at the start of `hay`? (model of Python prefix
comparison used by substring search). -/
def leadsWith : List Char → List Char → Bool
  | [], _ => true
  | _ :: _, [] => false
  | a :: as, b :: bs => a = b && leadsWith as bs

/-- Does `needle` occur somewhere in `hay`?  Model of Python's
`needle in hay` for strings. -/
def hasSub (needle : List Char) : List Char → Bool
  | [] => leadsWith needle []
  | c :: t => leadsWith needle (c :: t) || hasSub needle t

/-- Python `needle in hay` on `String`s. -/
def containsStr (needle hay : String) : Bool :=
  hasSub needle.toList hay.toList

/-- Python `s.lower()` restricted to ASCII case mapping. -/
def strLower (s : String) : String :=
  String.mk (s.toList.map Char.toLower)

/-- Decision and state transition of `NRSScraper.login` once the entry
page responded with `entryStatus` and the credential POST responded with
body `body`; `st` is the prior `logged_in` flag.  Returns
(return value, new `logged_in`).  Marker checks mirror lines 53-63 of
`nrs_scraper.py`: logout markers first, then invalid-credential markers,
otherwise tentative success. -/
def login_step (st : Bool) (entryStatus : Nat) (body : String) : Bool × Bool :=
  if entryStatus ≠ 200 then (false, st)
  else if containsStr "Log Out" body || containsStr "applicationAction=logout" body then
    (true, true)
  else if containsStr "Invalid" body || containsStr "incorrect" (strLower body) then
    (false, st)
  else (true, true)

/-- Decision and state transition of `NRSVendorSales.login`
(`nrs_daily_vendor_sales.py` lines 41-57): `logged_in` is set to the
bare logout-marker test; there is no invalid-credential or
tentative-success branch. -/
def daily_login_step (st : Bool) (entryStatus : Nat) (body : String) : Bool × Bool :=
  if entryStatus ≠ 200 then (false, st)
  else
    let r := containsStr "Log Out" body || containsStr "applicationAction=logout" body
    (r, r)

/-- One `Hover`-classed `tr` of the report table, as BeautifulSoup
exposes it: the stripped text of its `td` cells and the `href` values of
its `a[href]` descendants in document order. -/
structure Row where
  cells : List String
  anchors : List String
deriving DecidableEq, Repr

/-- The `table#ListSectionTable` contents: its `Hover` rows in document
order. -/
abbrev Table := List Row

/-- `re.search(r'apVendorId\[\]=(\d+)', href)`: find the first position
where the literal `apVendorId[]=` is followed by at least one digit and
return the maximal digit run after it. -/
def vendorIdSearch : List Char → Option String
  | [] => none
  | c :: rest =>
      if leadsWith "apVendorId[]=".toList (c :: rest)
          ∧ ((c :: rest).drop 13).takeWhile Char.isDigit ≠ [] then
        some (String.mk (((c :: rest).drop 13).takeWhile Char.isDigit))
      else vendorIdSearch rest

/-- The loop `for link in row.find_all('a', href=True): ... break`:
the first anchor whose `href` contains an `apVendorId[]=<digits>` match
wins; anchors without a match are passed over. -/
def rowVendorId : List String → Option String
  | [] => none
  | a :: rest =>
      match vendorIdSearch a.toList with
      | some i => some i
      | none => rowVendorId rest

/-- Python `dict` assignment `d[k] = v` on an insertion-ordered
association list: replaces the value in place if the key exists,
otherwise appends the new binding. -/
def dictInsert (k v : String) : List (String × String) → List (String × String)
  | [] => [(k, v)]
  | p :: rest => if p.1 = k then (k, v) :: rest else p :: dictInsert k v rest

/-- Python `d[k]` / `k in d` lookup on the association-list model. -/
def lookupD (k : String) : List (String × String) → Option String
  | [] => none
  | p :: rest => if p.1 = k then some p.2 else lookupD k rest

/-- One parsed summary row (`NRSScraper._parse_vendor_totals`, the
`vendor_data` dict, lines 203-210). -/
structure VendorData where
  vendor : String
  quantity : Int
  total_price : PyFloat
  vendor_payment_pct : PyFloat
  vendor_amount : PyFloat
  retained_amount : PyFloat
deriving DecidableEq, Repr

/-- Build the `vendor_data` dict from a summary row with at least six
cells. -/
def rowToVendorData (r : Row) : VendorData where
  vendor := r.cells.getD 0 ""
  quantity := parse_int (some (r.cells.getD 1 ""))
  total_price := parse_currency (some (r.cells.getD 2 ""))
  vendor_payment_pct := parse_percent (some (r.cells.getD 3 ""))
  vendor_amount := parse_currency (some (r.cells.getD 4 ""))
  retained_amount := parse_currency (some (r.cells.getD 5 ""))

/-- The row loop of `NRSScraper._parse_vendor_totals` (lines 198-219):
rows with fewer than 6 cells are skipped; each kept row appends its
record and, when an anchor matches, writes `vendor_ids[vendor_name]`. -/
def parseVTLoop : List Row → List VendorData × List (String × String) →
    List VendorData × List (String × String)
  | [], acc => acc
  | r :: rest, (vs, ids) =>
      if 6 ≤ r.cells.length then
        parseVTLoop rest (vs ++ [rowToVendorData r],
          match rowVendorId r.anchors with
          | some i => dictInsert (r.cells.getD 0 "") i ids
          | none => ids)
      else parseVTLoop rest (vs, ids)

/-- `NRSScraper._parse_vendor_totals` applied to a located table
(`None` models a document with no `table#ListSectionTable`, which
yields `[], {}`). -/
def parse_vendor_totals (tbl : Option Table) : List VendorData × List (String × String) :=
  match tbl with
  | none => ([], [])
  | some rows => parseVTLoop rows ([], [])

/-- One parsed detail row (`NRSScraper._parse_vendor_detail`,
lines 276-286). -/
structure DetailItem where
  vendor : String
  vendor_id : String
  stock_number : String
  item_name : String
  description : String
  quantity : Int
  total_price : PyFloat
  vendor_amount : PyFloat
  retained_amount : PyFloat
deriving DecidableEq, Repr

/-- Build one detail record from a row with at least seven cells. -/
def rowToDetailItem (vn vi : String) (r : Row) : DetailItem where
  vendor := vn
  vendor_id := vi
  stock_number := r.cells.getD 0 ""
  item_name := r.cells.getD 1 ""
  description := r.cells.getD 2 ""
  quantity := parse_int (some (r.cells.getD 3 ""))
  total_price := parse_currency (some (r.cells.getD 4 ""))
  vendor_amount := parse_currency (some (r.cells.getD 5 ""))
  retained_amount := parse_currency (some (r.cells.getD 6 ""))

/-- The row loop of `NRSScraper._parse_vendor_detail` (lines 273-287):
rows with fewer than 7 cells are skipped, kept rows are appended in
order. -/
def parseVDLoop (vn vi : String) : List Row → List DetailItem
  | [] => []
  | r :: rest =>
      if 7 ≤ r.cells.length then rowToDetailItem vn vi r :: parseVDLoop vn vi rest
      else parseVDLoop vn vi rest

/-- `NRSScraper._parse_vendor_detail` applied to a located table. -/
def parse_vendor_detail (tbl : Option Table) (vn vi : String) : List DetailItem :=
  match tbl with
  | none => []
  | some rows => parseVDLoop vn vi rows

/-- Float addition as the daily script's `+=` accumulation sees it
(IEEE special values propagate; finite values are added exactly). -/
def padd (a b : PyFloat) : PyFloat :=
  match a, b with
  | .pnan, _ => .pnan
  | _, .pnan => .pnan
  | .pinf s, .pinf t => if s = t then .pinf s else .pnan
  | .pinf s, .pfinite _ => .pinf s
  | .pfinite _, .pinf t => .pinf t
  | .pfinite x, .pfinite y => .pfinite (qAdd x y)

/-- Round-half-even of a rational to an integer (the tie-breaking rule
of Python's `round`). -/
def rhe (q : ℚ) : Int :=
  let f := Int.fdiv q.num (q.den : Int)
  let r2 := 2 * (q.num - f * (q.den : Int))
  if r2 < (q.den : Int) then f
  else if (q.den : Int) < r2 then f + 1
  else if f % 2 = 0 then f else f + 1

/-- Python `round(x, 2)` on the float model. -/
def pyRound2 : PyFloat → PyFloat
  | .pfinite q => .pfinite (mkRat (rhe (qMul q (mkRat 100 1))) 100)
  | x => x

/-- One record of the daily script's `vendors` list
(`NRSVendorSales._parse_vendor_sales`, lines 121-127).  `vendor_id` is
`None` when no anchor in the row matched. -/
structure DailyVendor where
  vendor_id : Option String
  vendor_name : String
  total_sales : PyFloat
  vendor_amount : PyFloat
  retained_amount : PyFloat
deriving DecidableEq, Repr

/-- The daily script's `totals` dict when the table was found. -/
structure DailyTotals where
  total_sales : PyFloat
  total_vendor_amount : PyFloat
  total_retained : PyFloat
  vendor_count : Nat
deriving DecidableEq, Repr

/-- Return value of `get_daily_vendor_sales` /
`_parse_vendor_sales`; `totals = none` models the empty `{}` totals
dict returned when the table is missing or the fetch failed. -/
structure DailyResult where
  date : String
  vendors : List DailyVendor
  totals : Option DailyTotals
deriving DecidableEq, Repr

/-- Build one daily record from a row with at least six cells
(columns 0, 2, 4, 5; the anchor scan supplies `vendor_id`). -/
def rowToDailyVendor (r : Row) : DailyVendor where
  vendor_id := rowVendorId r.anchors
  vendor_name := r.cells.getD 0 ""
  total_sales := parse_currency (some (r.cells.getD 2 ""))
  vendor_amount := parse_currency (some (r.cells.getD 4 ""))
  retained_amount := parse_currency (some (r.cells.getD 5 ""))

/-- The row loop of `NRSVendorSales._parse_vendor_sales`
(lines 103-132): skip rows with fewer than six cells; append the record
and accumulate the three running totals. -/
def dailyLoop : List Row → List DailyVendor × PyFloat × PyFloat × PyFloat →
    List DailyVendor × PyFloat × PyFloat × PyFloat
  | [], acc => acc
  | r :: rest, (vs, ts, tva, tr) =>
      if 6 ≤ r.cells.length then
        dailyLoop rest (vs ++ [rowToDailyVendor r],
          padd ts (rowToDailyVendor r).total_sales,
          padd tva (rowToDailyVendor r).vendor_amount,
          padd tr (rowToDailyVendor r).retained_amount)
      else dailyLoop rest (vs, ts, tva, tr)

/-- `NRSVendorSales._parse_vendor_sales` (lines 89-143): missing table
yields empty vendors and the empty totals dict; otherwise the loop runs
from zero accumulators and the totals are rounded to two decimals. -/
def parse_vendor_sales (tbl : Option Table) (date : String) : DailyResult :=
  match tbl with
  | none => ⟨date, [], none⟩
  | some rows =>
      let acc := dailyLoop rows ([], .pfinite 0, .pfinite 0, .pfinite 0)
      ⟨date, acc.1,
        some ⟨pyRound2 acc.2.1, pyRound2 acc.2.2.1, pyRound2 acc.2.2.2, acc.1.length⟩⟩

/-- Python truthiness of an optional string argument (`None` and `""`
are falsy), as used by `if start_date and end_date:`. -/
def truthyS : Option String → Bool
  | none => false
  | some s => !s.toList.isEmpty

/-- Python truthiness of an optional int argument (`None` and `0` are
falsy), as used by `elif month:`. -/
def truthyN : Option Nat → Bool
  | none => false
  | some n => n != 0

/-- A decimal digit character. -/
def digitChar (n : Nat) : Char :=
  if n = 0 then '0' else if n = 1 then '1' else if n = 2 then '2' else if n = 3 then '3'
  else if n = 4 then '4' else if n = 5 then '5' else if n = 6 then '6' else if n = 7 then '7'
  else if n = 8 then '8' else '9'

/-- Decimal digits of `n`, most significant first; `fuel` bounds the
recursion and any `fuel > n` is enough. -/
def decDigitsAux : Nat → Nat → List Char
  | 0, _ => []
  | fuel + 1, n =>
      if n < 10 then [digitChar n]
      else decDigitsAux fuel (n / 10) ++ [digitChar (n % 10)]

/-- Python `str(n)` for a non-negative int. -/
def decRepr (n : Nat) : String :=
  String.mk (decDigitsAux (n + 1) n)

/-- Python `str(x)` for an optional int the way the scraper calls it:
`str(None)` renders as `"None"`. -/
def strOfONat : Option Nat → String
  | none => "None"
  | some n => decRepr n

/-- `NRSScraper._build_date_params` (lines 65-88): the three period
shapes in the table-query vocabulary.  Note that every branch also
emits `frmDateRangeOrYear`. -/
def build_date_params (month year : Option Nat) (start_date end_date : Option String) :
    List (String × String) :=
  if truthyS start_date && truthyS end_date then
    [("frmDateRangeOrYear", "D"),
     ("invoiceDate_op", "2"),
     ("invoiceDate", (start_date.getD "")),
     ("invoiceDate_two", (end_date.getD "")),
     ("invoiceDate_thr", ""),
     ("invoiceDate_rg", "0"),
     ("invoiceDate_d", "")]
  else if truthyN month then
    [("frmDateRangeOrYear", "M"),
     ("frmMonth", strOfONat month),
     ("frmYear", strOfONat year)]
  else
    [("frmDateRangeOrYear", "Y"),
     ("frmYear", strOfONat year)]

/-- The summary-report query of `NRSScraper.get_vendor_totals`
(lines 148-153): fixed directives merged with the date filter. -/
def reportParams (month year : Option Nat) (start_date end_date : Option String) :
    List (String × String) :=
  [("go", "yes"), ("search", "1"), ("frmGrouping", "apVendorId")] ++
    build_date_params month year start_date end_date

/-- The detail-report query of `NRSScraper.get_vendor_detail`
(lines 237-243): item grouping plus a vendor filter. -/
def detailParams (vendor_id : String) (month year : Option Nat)
    (start_date end_date : Option String) : List (String × String) :=
  [("go", "yes"), ("search", "1"), ("frmGrouping", "invStockId"),
    ("apVendorId[]", vendor_id)] ++
    build_date_params month year start_date end_date

/-- The fixed daily query of `NRSVendorSales.get_daily_vendor_sales`
(lines 73-81): a one-day date range with no `invoiceDate_thr`,
`invoiceDate_rg` or `invoiceDate_d` fields. -/
def dailyParams (date : String) : List (String × String) :=
  [("go", "yes"), ("search", "1"), ("frmDateRangeOrYear", "D"),
   ("invoiceDate_op", "2"), ("invoiceDate", date), ("invoiceDate_two", date),
   ("frmGrouping", "apVendorId")]

/-- Uppercase hexadecimal digit, as `urllib.parse.quote` emits. -/
def hexDigitChar (n : Nat) : Char :=
  if n = 0 then '0' else if n = 1 then '1' else if n = 2 then '2' else if n = 3 then '3'
  else if n = 4 then '4' else if n = 5 then '5' else if n = 6 then '6' else if n = 7 then '7'
  else if n = 8 then '8' else if n = 9 then '9' else if n = 10 then 'A'
  else if n = 11 then 'B' else if n = 12 then 'C' else if n = 13 then 'D'
  else if n = 14 then 'E' else 'F'

/-- Value of a hexadecimal digit character (0 on other input). -/
def hexVal (c : Char) : Nat :=
  if c = '0' then 0 else if c = '1' then 1 else if c = '2' then 2 else if c = '3' then 3
  else if c = '4' then 4 else if c = '5' then 5 else if c = '6' then 6 else if c = '7' then 7
  else if c = '8' then 8 else if c = '9' then 9
  else if c = 'A' then 10 else if c = 'B' then 11 else if c = 'C' then 12
  else if c = 'D' then 13 else if c = 'E' then 14 else if c = 'F' then 15
  else if c = 'a' then 10 else if c = 'b' then 11 else if c = 'c' then 12
  else if c = 'd' then 13 else if c = 'e' then 14 else if c = 'f' then 15
  else 0

/-- UTF-8 bytes of a character (what `quote_plus` percent-encodes). -/
def utf8Bytes (c : Char) : List Nat :=
  let n := c.toNat
  if n < 128 then [n]
  else if n < 2048 then [192 + n / 64, 128 + n % 64]
  else if n < 65536 then [224 + n / 4096, 128 + (n / 64) % 64, 128 + n % 64]
  else [240 + n / 262144, 128 + (n / 4096) % 64, 128 + (n / 64) % 64, 128 + n % 64]

/-- Percent-encode a byte sequence. -/
def pctOfBytes : List Nat → List Char
  | [] => []
  | b :: t => '%' :: hexDigitChar (b / 16) :: hexDigitChar (b % 16) :: pctOfBytes t

/-- `urllib.parse.quote_plus` on one character: alphanumerics and
`_.-~` kept, space becomes `+`, everything else percent-encoded
byte-wise. -/
def quotePlusChar (c : Char) : List Char :=
  if c.isAlphanum || c = '_' || c = '.' || c = '-' || c = '~' then [c]
  else if c = ' ' then ['+']
  else pctOfBytes (utf8Bytes c)

/-- `quote_plus` over a whole string (as characters). -/
def qEnc : List Char → List Char
  | [] => []
  | c :: t => quotePlusChar c ++ qEnc t

/-- `urlencode` of one key/value pair. -/
def encPair (p : String × String) : List Char :=
  qEnc p.1.toList ++ '=' :: qEnc p.2.toList

/-- `urllib.parse.urlencode`: `&`-joined `key=value` pairs in dict
insertion order. -/
def urlencodeChars : List (String × String) → List Char
  | [] => []
  | [p] => encPair p
  | p :: q :: rest => encPair p ++ '&' :: urlencodeChars (q :: rest)

/-- The PDF endpoint (`NRSScraper.PDF_URL`). -/
def pdfBaseUrl : String := "https://www.nrsaccounting.com/ap/vendorInventorySalesPDF"

/-- The query dict of `NRSScraper._build_pdf_url` (lines 107-132):
fixed fields, then the period in the PDF-specific vocabulary. -/
def pdfParams (vendor_id : String) (month year : Option Nat)
    (start_date end_date : Option String) (pdf_mode : String) : List (String × String) :=
  [("go", "yes"), ("search", "1"), ("apVendorId[]", vendor_id),
    ("rptSetupId", "434"), ("pdf", pdf_mode)] ++
  (if truthyS start_date && truthyS end_date then
    [("invoiceDate_op", "2"),
     ("invoiceDate", (start_date.getD "")),
     ("invoiceDate_two", (end_date.getD "")),
     ("invoiceDate_thr", ""),
     ("invoiceDate_rg", "0"),
     ("invoiceDate_d", "")]
   else if truthyN month then
    [("invoiceMonth", strOfONat month), ("invoiceYear", strOfONat year)]
   else
    [("invoiceYear", strOfONat year)])

/-- `NRSScraper._build_pdf_url` (lines 90-134):
`f"{PDF_URL}?{urlencode(params)}"`. -/
def build_pdf_url (vendor_id : String) (month year : Option Nat)
    (start_date end_date : Option String) (pdf_mode : String) : String :=
  pdfBaseUrl ++ "?" ++ String.mk (urlencodeChars
    (pdfParams vendor_id month year start_date end_date pdf_mode))

/-- Percent-decoding of a query component (the verification-side
inverse of `quote_plus`, single-byte sequences). -/
def pctDecode : List Char → List Char
  | [] => []
  | c :: t =>
      if c = '+' then ' ' :: pctDecode t
      else if c = '%' then
        match t with
        | h :: l :: t2 => Char.ofNat (hexVal h * 16 + hexVal l) :: pctDecode t2
        | _ => c :: t
      else c :: pctDecode t

/-- Split a query string at `&` separators. -/
def splitAmp : List Char → List (List Char)
  | [] => [[]]
  | c :: t =>
      if c = '&' then [] :: splitAmp t
      else
        match splitAmp t with
        | [] => [[c]]
        | p :: ps => (c :: p) :: ps

/-- Split one `key=value` piece at its first `=`. -/
def splitFirstEq : List Char → List Char × List Char
  | [] => ([], [])
  | c :: t =>
      if c = '=' then ([], t)
      else
        let p := splitFirstEq t
        (c :: p.1, p.2)

/-- Decode one `key=value` piece. -/
def decodePair (piece : List Char) : String × String :=
  (String.mk (pctDecode (splitFirstEq piece).1), String.mk (pctDecode (splitFirstEq piece).2))

/-- Parse a query string back into its key/value pairs (the round-trip
check of the specification). -/
def parseQS (l : List Char) : List (String × String) :=
  if l.isEmpty then [] else (splitAmp l).map decodePair

/-- Everything after the first `?` of a URL. -/
def afterQmark : List Char → List Char
  | [] => []
  | c :: t => if c = '?' then t else afterQmark t

/-- An HTTP request the session issues: target URL and query params
(for requests whose params are already encoded into the URL, `params`
is empty). -/
structure HttpRequest where
  url : String
  params : List (String × String)
deriving DecidableEq, Repr

/-- The report endpoint used by summary and detail fetches. -/
def reportUrl : String := "https://www.nrsaccounting.com/ap/apVendorInventoryTotals"

/-- A report response as the scraper consumes it: HTTP status and the
BeautifulSoup view of the body (the located `ListSectionTable`, if
any). -/
structure ReportResponse where
  status : Nat
  table : Option Table
deriving DecidableEq, Repr

/-- A PDF-endpoint response: status and `Content-Type` header. -/
structure PdfResponse where
  status : Nat
  contentType : String
deriving DecidableEq, Repr

/-- `RuntimeError("Not logged in. Call login() first.")`. -/
inductive ScrapeError where
  | notLoggedIn
deriving DecidableEq, Repr

/-- A fully produced summary record after `get_vendor_totals` attached
`vendor_id` and `pdf_url` (lines 166-177). -/
structure VendorRecord where
  vendor : String
  quantity : Int
  total_price : PyFloat
  vendor_payment_pct : PyFloat
  vendor_amount : PyFloat
  retained_amount : PyFloat
  vendor_id : String
  pdf_url : String
deriving DecidableEq, Repr

/-- The enrichment step of `get_vendor_totals` (lines 166-177): a
record whose vendor name is in `vendor_ids` gets that id and a derived
PDF URL, otherwise empty strings. -/
def enrichVendor (vd : VendorData) (ids : List (String × String))
    (month year : Option Nat) (start_date end_date : Option String) : VendorRecord :=
  match lookupD vd.vendor ids with
  | some i =>
      ⟨vd.vendor, vd.quantity, vd.total_price, vd.vendor_payment_pct, vd.vendor_amount,
        vd.retained_amount, i, build_pdf_url i month year start_date end_date "download"⟩
  | none =>
      ⟨vd.vendor, vd.quantity, vd.total_price, vd.vendor_payment_pct, vd.vendor_amount,
        vd.retained_amount, "", ""⟩

/-- `NRSScraper.get_vendor_totals` (lines 136-179): fail fast when not
logged in (no request issued); otherwise issue the report GET; non-200
degrades to `([], {})`; a parsed table is enriched per record. -/
def get_vendor_totals (logged_in : Bool) (month year : Option Nat)
    (start_date end_date : Option String) (resp : ReportResponse) :
    Except ScrapeError (List VendorRecord × List (String × String)) × List HttpRequest :=
  if !logged_in then (.error .notLoggedIn, [])
  else
    let req : HttpRequest := ⟨reportUrl, reportParams month year start_date end_date⟩
    if resp.status ≠ 200 then (.ok ([], []), [req])
    else
      let p := parse_vendor_totals resp.table
      (.ok ((p.1.map (fun vd => enrichVendor vd p.2 month year start_date end_date)), p.2),
        [req])

/-- A detail record after `get_vendor_detail` attached the vendor PDF
URL to every item (lines 251-258). -/
structure DetailRecord where
  item : DetailItem
  pdf_url : String
deriving DecidableEq, Repr

/-- `NRSScraper.get_vendor_detail` (lines 224-260): fail fast when not
logged in; non-200 degrades to `[]`; otherwise parse the detail table
and attach the vendor's PDF URL to each item. -/
def get_vendor_detail (logged_in : Bool) (vendor_id vendor_name : String)
    (month year : Option Nat) (start_date end_date : Option String)
    (resp : ReportResponse) :
    Except ScrapeError (List DetailRecord) × List HttpRequest :=
  if !logged_in then (.error .notLoggedIn, [])
  else
    let req : HttpRequest := ⟨reportUrl, detailParams vendor_id month year start_date end_date⟩
    if resp.status ≠ 200 then (.ok [], [req])
    else
      let items := parse_vendor_detail resp.table vendor_name vendor_id
      let url := build_pdf_url vendor_id month year start_date end_date "download"
      (.ok (items.map (fun it => ⟨it, url⟩)), [req])

/-- `NRSScraper.download_vendor_pdf` (lines 318-343): fail fast when
not logged in; otherwise GET the built PDF URL and succeed only on a
200 response whose `Content-Type` contains `application/pdf`. -/
def download_vendor_pdf (logged_in : Bool) (vendor_id : String)
    (month year : Option Nat) (start_date end_date : Option String)
    (resp : PdfResponse) : Except ScrapeError Bool × List HttpRequest :=
  if !logged_in then (.error .notLoggedIn, [])
  else
    let url := build_pdf_url vendor_id month year start_date end_date "download"
    (.ok (resp.status = 200 && containsStr "application/pdf" resp.contentType),
      [⟨url, []⟩])

/-- `NRSVendorSales.get_daily_vendor_sales` (lines 59-87): fail fast
when not logged in (no request); non-200 yields the empty result;
otherwise parse. -/
def get_daily_vendor_sales (logged_in : Bool) (date : String)
    (resp : ReportResponse) : Except ScrapeError DailyResult × List HttpRequest :=
  if !logged_in then (.error .notLoggedIn, [])
  else
    let req : HttpRequest := ⟨reportUrl, dailyParams date⟩
    if resp.status ≠ 200 then (.ok ⟨date, [], none⟩, [req])
    else (.ok (parse_vendor_sales resp.table date), [req])

/-- The logout GET target. -/
def logoutUrl : String := "https://www.nrsaccounting.com/?applicationAction=logout"

/-- `NRSScraper.logout` / `NRSVendorSales.logout` (identical logic):
issue the logout GET and clear the flag only when logged in. -/
def logout_step (logged_in : Bool) : Bool × List HttpRequest :=
  if logged_in then (false, [⟨logoutUrl, []⟩]) else (logged_in, [])

/-- The three period shapes of the specification (`Period`). -/
inductive Period where
  | range (start_date end_date : String)
  | monthly (month year : Nat)
  | yearly (year : Nat)
deriving DecidableEq, Repr

/-- Call `_build_pdf_url` the way each period variant supplies its
arguments. -/
def build_pdf_url_for (vendor_id : String) (p : Period) (pdf_mode : String) : String :=
  match p with
  | .range s e => build_pdf_url vendor_id none none (some s) (some e) pdf_mode
  | .monthly m y => build_pdf_url vendor_id (some m) (some y) none none pdf_mode
  | .yearly y => build_pdf_url vendor_id none (some y) none none pdf_mode

/-- The PDF-vocabulary date fields the specification expects for each
period variant. -/
def periodPdfFields : Period → List (String × String)
  | .range s e =>
      [("invoiceDate_op", "2"), ("invoiceDate", s), ("invoiceDate_two", e),
       ("invoiceDate_thr", ""), ("invoiceDate_rg", "0"), ("invoiceDate_d", "")]
  | .monthly m y => [("invoiceMonth", decRepr m), ("invoiceYear", decRepr y)]
  | .yearly y => [("invoiceYear", decRepr y)]

/-- Side conditions under which a `Period` drives `_build_pdf_url` into
its own branch: range dates must be non-empty (Python truthiness) and
ASCII, a month must be non-zero. -/
def periodOk : Period → Prop
  | .range s e =>
      s ≠ "" ∧ e ≠ "" ∧ (∀ c ∈ s.toList, c.toNat < 128) ∧ (∀ c ∈ e.toList, c.toNat < 128)
  | .monthly m _ => m ≠ 0
  | .yearly _ => True

/-- The identifier contributed for `name` by the last summary data row
(≥ 6 cells) whose first cell is `name` and whose anchors match the
vendor-id pattern. -/
def lastMatchId (name : String) : List Row → Option String
  | [] => none
  | r :: rest =>
      match lastMatchId name rest with
      | some i => some i
      | none =>
          if 6 ≤ r.cells.length ∧ r.cells.getD 0 "" = name then rowVendorId r.anchors
          else none

example : parse_currency (some "$1,234.50") = .pfinite (mkRat 2469 2) := by decide

example : parse_currency (some "") = .pfinite 0 := by decide

example : parse_currency (some "N/A") = .pfinite 0 := by decide

example : parse_currency (some "inf") = .pinf false := by decide

example : parse_currency (some "$$5") = .pfinite (mkRat 5 1) := by decide

example : parse_percent (some "12.5%") = .pfinite (mkRat 25 2) := by decide

example : parse_int (some "1,024") = 1024 := by decide

example : parse_currency (some "1_0") = .pfinite (mkRat 10 1) := by decide

example : parse_currency (some "1_") = .pfinite 0 := by decide

example : parse_currency (some "1e") = .pfinite 0 := by decide

example : parse_currency (some " 2.5e2 ") = .pfinite (mkRat 250 1) := by decide

example : parse_currency (some ".5") = .pfinite (mkRat 1 2) := by decide

example : parse_currency (some "5.") = .pfinite (mkRat 5 1) := by decide

example : parse_currency (some ".") = .pfinite 0 := by decide

example : parse_currency (some "-3") = .pfinite (mkRat (-3) 1) := by decide

example : parse_currency (some "1e999") = .pinf false := by decide

example : containsStr "" "abc" = true := by decide

example : containsStr "Log Out" "<a>Log Out</a>" = true := by decide

example : containsStr "Log Out" "log out" = false := by decide

example : containsStr "incorrect" (strLower "INCORRECT password") = true := by decide

example : vendorIdSearch "x?apVendorId[]=42&pdf=1".toList = some "42" := by decide

example : vendorIdSearch "apVendorId[]=x apVendorId[]=57".toList = some "57" := by decide

example : vendorIdSearch "apVendorId=9".toList = none := by decide

example : rhe (mkRat 5 2) = 2 := by decide

example : rhe (mkRat 7 2) = 4 := by decide

example : rhe (mkRat (-5) 2) = -2 := by decide

example : rhe (mkRat 12 5) = 2 := by decide

example : pyRound2 (.pfinite (mkRat 1005 1000)) = .pfinite (mkRat 1 1) := by decide

example : decRepr 0 = "0" := by decide

example : decRepr 2025 = "2025" := by decide

example : String.mk (urlencodeChars [("apVendorId[]", "42"), ("invoiceDate", "01/01/2025")])
    = "apVendorId%5B%5D=42&invoiceDate=01%2F01%2F2025" := by decide

example :
    (get_vendor_totals false none (some 2025) none none ⟨200, none⟩).1 =
      .error .notLoggedIn := rfl

example : logout_step true = (false, [⟨logoutUrl, []⟩]) := rfl

/-- `mkRat` is ordinary division, connecting the kernel-friendly
arithmetic to the usual rational operations. -/
theorem mkRat_as_div (n : Int) (d : Nat) : mkRat n d = (n : ℚ) / (d : ℚ) := by
  rw [Rat.mkRat_eq_divInt, Rat.divInt_eq_div]
  norm_cast

/-- `qAdd` is exact rational addition. -/
theorem qAdd_eq_add (a b : ℚ) : qAdd a b = a + b := by
  have ha : ((a.den : ℚ)) ≠ 0 := by
    exact_mod_cast a.den_nz
  have hb : ((b.den : ℚ)) ≠ 0 := by
    exact_mod_cast b.den_nz
  unfold qAdd
  rw [mkRat_as_div]
  push_cast
  rw [div_eq_iff (mul_ne_zero ha hb)]
  have h2 : (a + b) * ((a.den : ℚ) * (b.den : ℚ)) =
      ((a.num : ℚ) / a.den * a.den) * b.den + ((b.num : ℚ) / b.den * b.den) * a.den := by
    rw [Rat.num_div_den, Rat.num_div_den]
    ring
  rw [h2, div_mul_cancel₀ _ ha, div_mul_cancel₀ _ hb]

/-- `qMul` is exact rational multiplication. -/
theorem qMul_eq_mul (a b : ℚ) : qMul a b = a * b := by
  have ha : ((a.den : ℚ)) ≠ 0 := by
    exact_mod_cast a.den_nz
  have hb : ((b.den : ℚ)) ≠ 0 := by
    exact_mod_cast b.den_nz
  unfold qMul
  rw [mkRat_as_div]
  push_cast
  rw [div_eq_iff (mul_ne_zero ha hb)]
  have h2 : a * b * ((a.den : ℚ) * (b.den : ℚ)) =
      ((a.num : ℚ) / a.den * a.den) * ((b.num : ℚ) / b.den * b.den) := by
    rw [Rat.num_div_den, Rat.num_div_den]
    ring
  rw [h2, div_mul_cancel₀ _ ha, div_mul_cancel₀ _ hb]

/-- A string that is not `""` is Python-truthy. -/
theorem truthyS_of_ne_empty {s : String} (h : s ≠ "") : truthyS (some s) = true := by
  simp only [truthyS]
  cases hs : s.toList with
  | nil =>
      exfalso
      apply h
      cases s with
      | mk data =>
          cases data with
          | nil => rfl
          | cons c t => simp [String.toList] at hs
  | cons c t => rfl

/-- C5: every fetch method called while `logged_in` is false returns
the `NotAuthenticated` error having issued no HTTP request; the error
is a value of that call's result, leaving the session object usable. -/
theorem fetch_requires_login (month year : Option Nat) (sd ed : Option String)
    (vid vname date : String) (r1 r2 r3 : ReportResponse) (pr : PdfResponse) :
    get_vendor_totals false month year sd ed r1 = (.error .notLoggedIn, []) ∧
    get_vendor_detail false vid vname month year sd ed r2 = (.error .notLoggedIn, []) ∧
    download_vendor_pdf false vid month year sd ed pr = (.error .notLoggedIn, []) ∧
    get_daily_vendor_sales false date r3 = (.error .notLoggedIn, []) :=
  ⟨rfl, rfl, rfl, rfl⟩

/-- C6: `logout` issues exactly one logout GET and clears the flag when
logged in, is a no-op when already logged out, always leaves the
session logged out, and a second call in succession is a no-op. -/
theorem logout_idempotent_safe :
    logout_step true = (false, [⟨logoutUrl, []⟩]) ∧
    logout_step false = (false, []) ∧
    (∀ st, (logout_step st).1 = false) ∧
    (∀ st, logout_step ((logout_step st).1) = (false, [])) := by
  refine ⟨rfl, rfl, fun st => ?_, fun st => ?_⟩ <;> cases st <;> rfl

/-- C1 counterexample: a response body with no recognizable marker at
all (here the empty body) makes `NRSVendorSales.login` return `False`
and leave the session logged out, while the claim asserts tentative
success for every login implementation.  (`NRSScraper.login` does
return `True` on the same body.) -/
theorem daily_login_no_tentative_success :
    containsStr "Log Out" "" = false ∧
    containsStr "applicationAction=logout" "" = false ∧
    containsStr "Invalid" "" = false ∧
    containsStr "incorrect" (strLower "") = false ∧
    daily_login_step false 200 "" = (false, false) ∧
    login_step false 200 "" = (true, true) := by
  refine ⟨rfl, rfl, rfl, rfl, rfl, rfl⟩

/-- C1 amended: after a 200 entry page, `NRSScraper.login` follows the
claimed three-way heuristic (logout markers ⇒ success, else
invalid-credential markers ⇒ failure, else tentative success), while
`NRSVendorSales.login` succeeds exactly on the logout markers and
treats any other body — marker-less ones included — as failure,
remaining logged out. -/
theorem login_marker_heuristic (body : String) :
    ((containsStr "Log Out" body || containsStr "applicationAction=logout" body) = true →
      login_step false 200 body = (true, true) ∧
      daily_login_step false 200 body = (true, true)) ∧
    ((containsStr "Log Out" body || containsStr "applicationAction=logout" body) = false →
      (containsStr "Invalid" body || containsStr "incorrect" (strLower body)) = true →
      login_step false 200 body = (false, false) ∧
      daily_login_step false 200 body = (false, false)) ∧
    ((containsStr "Log Out" body || containsStr "applicationAction=logout" body) = false →
      (containsStr "Invalid" body || containsStr "incorrect" (strLower body)) = false →
      login_step false 200 body = (true, true) ∧
      daily_login_step false 200 body = (false, false)) := by
  unfold login_step daily_login_step
  refine ⟨fun h1 => ?_, fun h1 h2 => ?_, fun h1 h2 => ?_⟩
  · simp [h1]
  · rw [Bool.or_eq_false_iff] at h1
    simp [h1.1, h1.2, h2]
  · rw [Bool.or_eq_false_iff] at h1 h2
    simp [h1.1, h1.2, h2.1, h2.2]

/-- C1 witness: the marker branch at a concrete successful body. -/
theorem login_marker_heuristic_witness :
    login_step false 200 "<a>Log Out</a>" = (true, true) ∧
    daily_login_step false 200 "<a>Log Out</a>" = (true, true) :=
  (login_marker_heuristic "<a>Log Out</a>").1 (by decide)

/-- C3 counterexample: the date-range query of `NRSScraper` carries the
extra date-shape field `frmDateRangeOrYear`, and the daily script's
date-range query omits `invoiceDate_thr` (and the other two empty
fields), so neither request consists exactly of the six claimed
date fields. -/
theorem date_range_params_extra_field :
    ((reportParams none none (some "01/01/2025") (some "12/31/2025")).map Prod.fst).contains
        "frmDateRangeOrYear" = true ∧
    ((dailyParams "12/11/2025").map Prod.fst).contains "invoiceDate_thr" = false := by
  refine ⟨rfl, rfl⟩

/-- C3 amended: for truthy date-range arguments the report query is
`go`, `search`, `frmGrouping` followed by `frmDateRangeOrYear=D` and
the six claimed `invoiceDate*` fields; the daily script sends
`frmDateRangeOrYear=D`, `invoiceDate_op=2` and the two dates only. -/
theorem date_range_params_spec (month year : Option Nat) (sd ed : String)
    (hs : sd ≠ "") (he : ed ≠ "") (date : String) :
    reportParams month year (some sd) (some ed) =
      [("go", "yes"), ("search", "1"), ("frmGrouping", "apVendorId"),
       ("frmDateRangeOrYear", "D"), ("invoiceDate_op", "2"), ("invoiceDate", sd),
       ("invoiceDate_two", ed), ("invoiceDate_thr", ""), ("invoiceDate_rg", "0"),
       ("invoiceDate_d", "")] ∧
    dailyParams date =
      [("go", "yes"), ("search", "1"), ("frmDateRangeOrYear", "D"),
       ("invoiceDate_op", "2"), ("invoiceDate", date), ("invoiceDate_two", date),
       ("frmGrouping", "apVendorId")] := by
  constructor
  · unfold reportParams build_date_params
    rw [truthyS_of_ne_empty hs, truthyS_of_ne_empty he]
    rfl
  · rfl

/-- C3 witness: the amended parameter lists at concrete dates. -/
theorem date_range_params_spec_witness :
    reportParams none none (some "01/01/2025") (some "12/31/2025") =
      [("go", "yes"), ("search", "1"), ("frmGrouping", "apVendorId"),
       ("frmDateRangeOrYear", "D"), ("invoiceDate_op", "2"),
       ("invoiceDate", "01/01/2025"), ("invoiceDate_two", "12/31/2025"),
       ("invoiceDate_thr", ""), ("invoiceDate_rg", "0"), ("invoiceDate_d", "")] ∧
    dailyParams "12/11/2025" =
      [("go", "yes"), ("search", "1"), ("frmDateRangeOrYear", "D"),
       ("invoiceDate_op", "2"), ("invoiceDate", "12/11/2025"),
       ("invoiceDate_two", "12/11/2025"), ("frmGrouping", "apVendorId")] :=
  (date_range_params_spec none none "01/01/2025" "12/31/2025" (by decide) (by decide)
    "12/11/2025")

/-- C2 counterexample: `_parse_currency` is not always finite — the
input `"inf"` parses to a float infinity — and it strips all `$`
characters, not just a leading symbol, so `"$$5"` yields `5.0` where
the claim's malformed-input clause demands `0.0`. -/
theorem parse_currency_not_always_finite :
    parse_currency (some "inf") = .pinf false ∧
    parse_currency (some "$$5") = .pfinite (mkRat 5 1) ∧
    PyFloat.pfinite (mkRat 5 1) ≠ .pfinite 0 := by
  refine ⟨by decide, by decide, by decide⟩

/-- C2 amended: `_parse_currency` never raises: a `None` argument and
any input whose residue after removing every `$` and `,` fails float
parsing yield `0.0`; the claimed concrete values hold.  (Inputs whose
residue parses as an IEEE infinity or NaN, such as `"inf"`, return
that non-finite value instead of a finite number.) -/
theorem parse_currency_zero_on_failure :
    parse_currency none = .pfinite 0 ∧
    (∀ s : String, pyFloatOfChars (currencyStrip s) = none →
      parse_currency (some s) = .pfinite 0) ∧
    parse_currency (some "$1,234.50") = .pfinite (1234.50 : ℚ) ∧
    parse_currency (some "") = .pfinite 0 ∧
    parse_currency (some "N/A") = .pfinite 0 := by
  refine ⟨rfl, fun s h => ?_, ?_, by decide, by decide⟩
  · simp only [parse_currency, h]
  · have h : parse_currency (some "$1,234.50") = .pfinite (mkRat 2469 2) := by decide
    rw [h]
    congr 1
    rw [mkRat_as_div]
    norm_num

/-- C2 witness: the zero-on-failure clause at the concrete malformed
input `"N/A"`. -/
theorem parse_currency_zero_on_failure_witness :
    pyFloatOfChars (currencyStrip "N/A") = none ∧
    parse_currency (some "N/A") = .pfinite 0 :=
  ⟨by decide, parse_currency_zero_on_failure.2.1 "N/A" (by decide)⟩

/-- The records component of the summary-row loop: rows with fewer than
six cells are dropped, the rest are mapped in order. -/
theorem parseVTLoop_fst (rows : List Row) :
    ∀ (vs : List VendorData) (ids : List (String × String)),
      (parseVTLoop rows (vs, ids)).1 =
        vs ++ (rows.filter (fun r => 6 ≤ r.cells.length)).map rowToVendorData := by
  induction rows with
  | nil =>
      intro vs ids
      simp [parseVTLoop]
  | cons r rest ih =>
      intro vs ids
      by_cases h : 6 ≤ r.cells.length
      · simp [parseVTLoop, h, ih]
      · simp [parseVTLoop, h, ih]

/-- The detail-row loop drops rows with fewer than seven cells and maps
the rest in order. -/
theorem parseVDLoop_eq (vn vi : String) (rows : List Row) :
    parseVDLoop vn vi rows =
      (rows.filter (fun r => 7 ≤ r.cells.length)).map (rowToDetailItem vn vi) := by
  induction rows with
  | nil => rfl
  | cons r rest ih =>
      by_cases h : 7 ≤ r.cells.length <;> simp [parseVDLoop, h, ih]

/-- The daily loop: records are the kept rows in order, and each
accumulator is the left fold of `padd` over that record field. -/
theorem dailyLoop_spec (rows : List Row) :
    ∀ (vs : List DailyVendor) (a b c : PyFloat),
      dailyLoop rows (vs, a, b, c) =
        (vs ++ (rows.filter (fun r => 6 ≤ r.cells.length)).map rowToDailyVendor,
         ((rows.filter (fun r => 6 ≤ r.cells.length)).map
             (fun r => (rowToDailyVendor r).total_sales)).foldl padd a,
         ((rows.filter (fun r => 6 ≤ r.cells.length)).map
             (fun r => (rowToDailyVendor r).vendor_amount)).foldl padd b,
         ((rows.filter (fun r => 6 ≤ r.cells.length)).map
             (fun r => (rowToDailyVendor r).retained_amount)).foldl padd c) := by
  induction rows with
  | nil =>
      intro vs a b c
      simp [dailyLoop]
  | cons r rest ih =>
      intro vs a b c
      by_cases h : 6 ≤ r.cells.length
      · simp [dailyLoop, h, ih]
      · simp [dailyLoop, h, ih]

/-- C7: all three table extractors skip every data row below their
schema's minimum cell count (6 for the two summary shapes, 7 for the
detail shape), keep processing the remaining rows, and return records
in table row order; being total functions, they never raise. -/
theorem short_rows_skipped_order_preserved (rows : List Row) (vn vi date : String) :
    (parse_vendor_totals (some rows)).1 =
      (rows.filter (fun r => 6 ≤ r.cells.length)).map rowToVendorData ∧
    parse_vendor_detail (some rows) vn vi =
      (rows.filter (fun r => 7 ≤ r.cells.length)).map (rowToDetailItem vn vi) ∧
    (parse_vendor_sales (some rows) date).vendors =
      (rows.filter (fun r => 6 ≤ r.cells.length)).map rowToDailyVendor := by
  refine ⟨?_, parseVDLoop_eq vn vi rows, ?_⟩
  · simpa using parseVTLoop_fst rows [] []
  · simp [parse_vendor_sales, dailyLoop_spec]

/-- C8: the daily totals are exactly the plain left-accumulated sums of
the produced records' fields, rounded to two decimals, and
`vendor_count` is the number of records. -/
theorem daily_totals_accumulation (rows : List Row) (date : String) :
    (parse_vendor_sales (some rows) date).totals =
      some ⟨pyRound2 (((parse_vendor_sales (some rows) date).vendors.map
              DailyVendor.total_sales).foldl padd (.pfinite 0)),
            pyRound2 (((parse_vendor_sales (some rows) date).vendors.map
              DailyVendor.vendor_amount).foldl padd (.pfinite 0)),
            pyRound2 (((parse_vendor_sales (some rows) date).vendors.map
              DailyVendor.retained_amount).foldl padd (.pfinite 0)),
            (parse_vendor_sales (some rows) date).vendors.length⟩ := by
  simp [parse_vendor_sales, dailyLoop_spec, List.map_map, Function.comp_def]

/-- Looking up the key just written. -/
theorem lookupD_dictInsert_self (k v : String) (d : List (String × String)) :
    lookupD k (dictInsert k v d) = some v := by
  induction d with
  | nil => simp [dictInsert, lookupD]
  | cons p rest ih =>
      by_cases h : p.1 = k
      · simp [dictInsert, lookupD, h]
      · simp [dictInsert, lookupD, h, ih]

/-- Writing a different key leaves a lookup unchanged. -/
theorem lookupD_dictInsert_ne (k k' v : String) (d : List (String × String))
    (h : k' ≠ k) : lookupD k (dictInsert k' v d) = lookupD k d := by
  induction d with
  | nil => simp [dictInsert, lookupD, h]
  | cons p rest ih =>
      by_cases hp : p.1 = k'
      · simp [dictInsert, lookupD, hp, h, Ne.symm h]
      · by_cases hk : p.1 = k
        · simp [dictInsert, lookupD, hp, hk, Ne.symm h]
        · simp [dictInsert, lookupD, hp, hk, ih]

/-- The dict component of the summary-row loop: the final value under
`name` is the last matching row's identifier, falling back to whatever
the accumulator already held. -/
theorem parseVTLoop_lookup (name : String) (rows : List Row) :
    ∀ (vs : List VendorData) (ids : List (String × String)),
      lookupD name (parseVTLoop rows (vs, ids)).2 =
        (match lastMatchId name rows with
         | some i => some i
         | none => lookupD name ids) := by
  induction rows with
  | nil =>
      intro vs ids
      simp [parseVTLoop, lastMatchId]
  | cons r rest ih =>
      intro vs ids
      by_cases h6 : 6 ≤ r.cells.length
      · cases hv : rowVendorId r.anchors with
        | some i =>
            by_cases hn : r.cells.getD 0 "" = name
            · simp only [parseVTLoop, if_pos h6, hv, ih, lastMatchId]
              cases lastMatchId name rest with
              | some j => simp
              | none =>
                  rw [← hn, lookupD_dictInsert_self]
                  simp [h6, hn]
            · simp only [parseVTLoop, if_pos h6, hv, ih, lastMatchId]
              cases lastMatchId name rest with
              | some j => simp
              | none =>
                  rw [lookupD_dictInsert_ne name (r.cells.getD 0 "") i ids hn]
                  rw [List.getD_eq_getElem?_getD] at hn
                  simp [h6, hn]
        | none =>
            simp only [parseVTLoop, if_pos h6, hv, ih, lastMatchId]
            cases lastMatchId name rest with
            | some j => simp
            | none => simp [hv]
      · simp only [parseVTLoop, if_neg h6, ih, lastMatchId]
        cases lastMatchId name rest with
        | some j => simp
        | none => simp [h6]

/-- Keys present after a dict write. -/
theorem mem_keys_dictInsert (x k v : String) (d : List (String × String)) :
    x ∈ (dictInsert k v d).map Prod.fst ↔ x = k ∨ x ∈ d.map Prod.fst := by
  induction d with
  | nil => simp [dictInsert]
  | cons p rest ih =>
      by_cases h : p.1 = k
      · simp [dictInsert, h]
      · simp [dictInsert, h, ih]
        tauto

/-- A dict write preserves distinctness of keys. -/
theorem nodup_keys_dictInsert (k v : String) (d : List (String × String))
    (hd : (d.map Prod.fst).Nodup) : ((dictInsert k v d).map Prod.fst).Nodup := by
  induction d with
  | nil => simp [dictInsert]
  | cons p rest ih =>
      simp only [List.map_cons, List.nodup_cons] at hd
      by_cases h : p.1 = k
      · simp only [dictInsert, if_pos h, List.map_cons, List.nodup_cons]
        exact ⟨h ▸ hd.1, hd.2⟩
      · simp only [dictInsert, if_neg h, List.map_cons, List.nodup_cons]
        refine ⟨?_, ih hd.2⟩
        intro hmem
        rcases (mem_keys_dictInsert p.1 k v rest).1 hmem with hk | hk
        · exact h hk
        · exact hd.1 hk

/-- The summary-row loop preserves distinctness of index keys. -/
theorem parseVTLoop_keys_nodup (rows : List Row) :
    ∀ (vs : List VendorData) (ids : List (String × String)),
      (ids.map Prod.fst).Nodup → (((parseVTLoop rows (vs, ids)).2).map Prod.fst).Nodup := by
  induction rows with
  | nil =>
      intro vs ids h
      simpa [parseVTLoop] using h
  | cons r rest ih =>
      intro vs ids h
      by_cases h6 : 6 ≤ r.cells.length
      · cases hv : rowVendorId r.anchors with
        | some i =>
            simp only [parseVTLoop, if_pos h6, hv]
            exact ih _ _ (nodup_keys_dictInsert _ _ _ h)
        | none =>
            simp only [parseVTLoop, if_pos h6, hv]
            exact ih _ _ h
      · simp only [parseVTLoop, if_neg h6]
        exact ih _ _ h

/-- If no row displaying `name` has a matching anchor, the last-match
identifier for `name` is absent. -/
theorem lastMatchId_eq_none (name : String) (rows : List Row)
    (h : ∀ r ∈ rows, r.cells.getD 0 "" = name → rowVendorId r.anchors = none) :
    lastMatchId name rows = none := by
  induction rows with
  | nil => rfl
  | cons r rest ih =>
      simp only [lastMatchId]
      rw [ih (fun x hx => h x (List.mem_cons_of_mem _ hx))]
      by_cases hc : 6 ≤ r.cells.length ∧ r.cells.getD 0 "" = name
      · rw [if_pos hc, h r (List.mem_cons_self r rest) hc.2]
      · rw [if_neg hc]

/-- C10: the name→id index has pairwise distinct keys, its entry for a
display name is the identifier extracted from the last qualifying row
bearing that name (later rows overwrite earlier ones), and every
produced record with that name is enriched with that identifier and
its derived PDF URL. -/
theorem vendor_index_last_write_wins (rows : List Row) (name : String)
    (month year : Option Nat) (sd ed : Option String) :
    lookupD name (parse_vendor_totals (some rows)).2 = lastMatchId name rows ∧
    (((parse_vendor_totals (some rows)).2).map Prod.fst).Nodup ∧
    (∀ vd ∈ (parse_vendor_totals (some rows)).1, vd.vendor = name →
      ∀ i, lastMatchId name rows = some i →
        (enrichVendor vd (parse_vendor_totals (some rows)).2 month year sd ed).vendor_id = i ∧
        (enrichVendor vd (parse_vendor_totals (some rows)).2 month year sd ed).pdf_url =
          build_pdf_url i month year sd ed "download") := by
  have hmain : lookupD name (parse_vendor_totals (some rows)).2 = lastMatchId name rows := by
    simp only [parse_vendor_totals]
    rw [parseVTLoop_lookup name rows [] []]
    cases lastMatchId name rows <;> rfl
  refine ⟨hmain, ?_, ?_⟩
  · simp only [parse_vendor_totals]
    exact parseVTLoop_keys_nodup rows [] [] (by simp)
  · intro vd hvd hname i hlast
    have h1 : lookupD vd.vendor (parse_vendor_totals (some rows)).2 = some i := by
      rw [hname, hmain, hlast]
    constructor <;> simp [enrichVendor, h1]

/-- C10 witness: two rows with the same display name and ids 42 and 77;
the index keeps 77 and the first row's record is enriched with 77. -/
theorem vendor_index_last_write_wins_witness :
    (enrichVendor
        ⟨"Acme", 1, .pfinite (mkRat 2 1), .pfinite (mkRat 3 1), .pfinite (mkRat 4 1),
          .pfinite (mkRat 5 1)⟩
        (parse_vendor_totals (some
          [⟨["Acme", "1", "2", "3", "4", "5"], ["x?apVendorId[]=42"]⟩,
           ⟨["Acme", "1", "2", "3", "4", "5"], ["x?apVendorId[]=77"]⟩])).2
        none none (some "01/01/2025") (some "01/31/2025")).vendor_id = "77" :=
  ((vendor_index_last_write_wins
      [⟨["Acme", "1", "2", "3", "4", "5"], ["x?apVendorId[]=42"]⟩,
       ⟨["Acme", "1", "2", "3", "4", "5"], ["x?apVendorId[]=77"]⟩]
      "Acme" none none (some "01/01/2025") (some "01/31/2025")).2.2
    ⟨"Acme", 1, .pfinite (mkRat 2 1), .pfinite (mkRat 3 1), .pfinite (mkRat 4 1),
      .pfinite (mkRat 5 1)⟩
    (by decide) (by decide) "77" (by decide)).1

/-- C4 counterexample: a summary row with no anchor whose display name
also appears on an anchored row is enriched with that other row's
identifier (`"42"`), not with an empty string; and in the daily script
a row with no matching anchor records `None` (not `""`) as its
identifier. -/
theorem missing_anchor_not_always_empty :
    (⟨["Acme", "1", "2", "3", "4", "5"], []⟩ : Row).anchors = [] ∧
    ((get_vendor_totals true none none (some "01/01/2025") (some "01/31/2025")
        ⟨200, some [⟨["Acme", "1", "2", "3", "4", "5"], ["x?apVendorId[]=42"]⟩,
                    ⟨["Acme", "1", "2", "3", "4", "5"], []⟩]⟩).1.toOption.map
      (fun p => p.1.map VendorRecord.vendor_id)) = some ["42", "42"] ∧
    (parse_vendor_sales (some [⟨["Beta", "1", "2", "3", "4", "5"], []⟩])
        "12/11/2025").vendors.map DailyVendor.vendor_id = [none] := by
  refine ⟨rfl, by decide, by decide⟩

/-- C4 amended: when no data row bearing a given display name has a
matching anchor, every produced summary record with that name carries
an empty-string `vendor_id` and an empty-string `pdf_url` (the absence
never raises); in the daily script such a record instead carries a
`None` identifier (and no PDF field exists in that record shape). -/
theorem missing_anchor_empty_enrichment (rows : List Row) (name : String)
    (month year : Option Nat) (sd ed : Option String)
    (h : ∀ r ∈ rows, r.cells.getD 0 "" = name → rowVendorId r.anchors = none) :
    (∀ vd ∈ (parse_vendor_totals (some rows)).1, vd.vendor = name →
      (enrichVendor vd (parse_vendor_totals (some rows)).2 month year sd ed).vendor_id = "" ∧
      (enrichVendor vd (parse_vendor_totals (some rows)).2 month year sd ed).pdf_url = "") ∧
    (∀ r : Row, rowVendorId r.anchors = none → (rowToDailyVendor r).vendor_id = none) := by
  constructor
  · intro vd hvd hname
    have hlast : lastMatchId name rows = none := lastMatchId_eq_none name rows h
    have h1 : lookupD vd.vendor (parse_vendor_totals (some rows)).2 = none := by
      rw [hname]
      simp only [parse_vendor_totals]
      rw [parseVTLoop_lookup name rows [] [], hlast]
      rfl
    constructor <;> simp [enrichVendor, h1]
  · intro r hr
    simp [rowToDailyVendor, hr]

/-- C4 witness: a single anchorless row yields an empty id and PDF URL
in the summary shape and a `None` id in the daily shape. -/
theorem missing_anchor_empty_enrichment_witness :
    (enrichVendor
        ⟨"Beta", 1, .pfinite (mkRat 2 1), .pfinite (mkRat 3 1), .pfinite (mkRat 4 1),
          .pfinite (mkRat 5 1)⟩
        (parse_vendor_totals (some [⟨["Beta", "1", "2", "3", "4", "5"], []⟩])).2
        none none (some "01/01/2025") (some "01/31/2025")).vendor_id = "" ∧
    (enrichVendor
        ⟨"Beta", 1, .pfinite (mkRat 2 1), .pfinite (mkRat 3 1), .pfinite (mkRat 4 1),
          .pfinite (mkRat 5 1)⟩
        (parse_vendor_totals (some [⟨["Beta", "1", "2", "3", "4", "5"], []⟩])).2
        none none (some "01/01/2025") (some "01/31/2025")).pdf_url = "" :=
  (missing_anchor_empty_enrichment [⟨["Beta", "1", "2", "3", "4", "5"], []⟩] "Beta"
      none none (some "01/01/2025") (some "01/31/2025") (by decide)).1
    ⟨"Beta", 1, .pfinite (mkRat 2 1), .pfinite (mkRat 3 1), .pfinite (mkRat 4 1),
      .pfinite (mkRat 5 1)⟩
    (by decide) (by decide)

/-- `toList` distributes over string append. -/
theorem strToList_append (a b : String) : (a ++ b).toList = a.toList ++ b.toList :=
  String.data_append a b

/-- Rebuilding a string from its characters is the identity. -/
theorem strMk_toList (s : String) : String.mk s.toList = s := rfl

/-- Hex encode/decode of a nibble round-trips. -/
theorem hexVal_hexDigitChar : ∀ k < 16, hexVal (hexDigitChar k) = k := by decide

/-- Hex digits are neither `&` nor `=`. -/
theorem hexDigitChar_ne_sep : ∀ k < 16, hexDigitChar k ≠ '&' ∧ hexDigitChar k ≠ '=' := by
  decide

/-- A `quote_plus`-safe character is neither `+` nor `%`. -/
theorem safe_not_special (c : Char)
    (h : (c.isAlphanum || c = '_' || c = '.' || c = '-' || c = '~') = true) :
    c ≠ '+' ∧ c ≠ '%' := by
  constructor <;> rintro rfl <;> exact absurd h (by decide)

/-- Reduction: decoding a `+`. -/
theorem pctDecode_plus (t : List Char) : pctDecode ('+' :: t) = ' ' :: pctDecode t := by
  conv_lhs => rw [pctDecode.eq_def]
  simp

/-- Reduction: decoding a percent escape. -/
theorem pctDecode_pct (h l : Char) (t : List Char) :
    pctDecode ('%' :: h :: l :: t) = Char.ofNat (hexVal h * 16 + hexVal l) :: pctDecode t := by
  conv_lhs => rw [pctDecode.eq_def]
  simp

/-- Reduction: decoding an ordinary character. -/
theorem pctDecode_cons (c : Char) (t : List Char) (h1 : c ≠ '+') (h2 : c ≠ '%') :
    pctDecode (c :: t) = c :: pctDecode t := by
  conv_lhs => rw [pctDecode.eq_def]
  simp [h1, h2]

/-- Decoding inverts `quote_plus` on one ASCII character. -/
theorem pctDecode_quotePlusChar (c : Char) (hc : c.toNat < 128) (rest : List Char) :
    pctDecode (quotePlusChar c ++ rest) = c :: pctDecode rest := by
  by_cases hs : (c.isAlphanum || c = '_' || c = '.' || c = '-' || c = '~') = true
  · obtain ⟨h1, h2⟩ := safe_not_special c hs
    simp only [quotePlusChar, hs, if_true, List.cons_append, List.nil_append]
    exact pctDecode_cons c rest h1 h2
  · by_cases hsp : c = ' '
    · subst hsp
      simp [quotePlusChar, pctDecode_plus]
    · have hb : utf8Bytes c = [c.toNat] := by
        simp [utf8Bytes, hc]
      simp only [quotePlusChar, hs, hsp, hb, pctOfBytes, Bool.false_eq_true, if_false,
        List.cons_append, List.nil_append]
      rw [pctDecode_pct]
      rw [hexVal_hexDigitChar _ (by omega : c.toNat / 16 < 16),
        hexVal_hexDigitChar _ (by omega : c.toNat % 16 < 16)]
      have heq : c.toNat / 16 * 16 + c.toNat % 16 = c.toNat := by omega
      rw [heq, Char.ofNat_toNat]

/-- Characters emitted by `quote_plus` are never separators. -/
theorem quotePlusChar_ne_sep (c : Char) (hc : c.toNat < 128) :
    ∀ x ∈ quotePlusChar c, x ≠ '&' ∧ x ≠ '=' := by
  intro x hx
  by_cases hs : (c.isAlphanum || c = '_' || c = '.' || c = '-' || c = '~') = true
  · simp only [quotePlusChar, hs, if_true, List.mem_singleton] at hx
    subst hx
    constructor <;> rintro rfl <;> exact absurd hs (by decide)
  · by_cases hsp : c = ' '
    · subst hsp
      simp only [quotePlusChar, hs, Bool.false_eq_true, if_false, if_true,
        List.mem_singleton] at hx
      subst hx
      exact ⟨by decide, by decide⟩
    · have hb : utf8Bytes c = [c.toNat] := by
        simp [utf8Bytes, hc]
      simp only [quotePlusChar, hs, hsp, hb, pctOfBytes, Bool.false_eq_true, if_false,
        List.mem_cons, List.not_mem_nil, or_false] at hx
      rcases hx with hx | hx | hx
      · subst hx
        exact ⟨by decide, by decide⟩
      · subst hx
        exact hexDigitChar_ne_sep _ (by omega)
      · subst hx
        exact hexDigitChar_ne_sep _ (by omega)

/-- Decoding inverts `quote_plus` on an ASCII string. -/
theorem pctDecode_qEnc (l : List Char) (h : ∀ c ∈ l, c.toNat < 128) (rest : List Char) :
    pctDecode (qEnc l ++ rest) = l ++ pctDecode rest := by
  induction l with
  | nil => simp [qEnc]
  | cons c t ih =>
      simp only [qEnc, List.append_assoc, List.cons_append]
      rw [pctDecode_quotePlusChar c (h c (List.mem_cons_self c t)),
        ih (fun x hx => h x (List.mem_cons_of_mem _ hx))]

/-- Separators do not occur in `quote_plus` output of ASCII strings. -/
theorem qEnc_no_sep (l : List Char) (h : ∀ c ∈ l, c.toNat < 128) :
    '&' ∉ qEnc l ∧ '=' ∉ qEnc l := by
  induction l with
  | nil => simp [qEnc]
  | cons c t ih =>
      have iht := ih (fun x hx => h x (List.mem_cons_of_mem _ hx))
      have hchar := quotePlusChar_ne_sep c (h c (List.mem_cons_self c t))
      simp only [qEnc, List.mem_append]
      constructor
      · rintro (hm | hm)
        · exact (hchar '&' hm).1 rfl
        · exact iht.1 hm
      · rintro (hm | hm)
        · exact (hchar '=' hm).2 rfl
        · exact iht.2 hm

/-- A piece without `&` is not split. -/
theorem splitAmp_no_amp (a : List Char) (h : '&' ∉ a) : splitAmp a = [a] := by
  induction a with
  | nil => rfl
  | cons c t ih =>
      have hc : c ≠ '&' := fun hce => h (hce ▸ List.mem_cons_self c t)
      have ht : '&' ∉ t := fun hm => h (List.mem_cons_of_mem _ hm)
      simp [splitAmp, hc, ih ht]

/-- Splitting after an `&`-free prefix peels that prefix off. -/
theorem splitAmp_append (a b : List Char) (h : '&' ∉ a) :
    splitAmp (a ++ '&' :: b) = a :: splitAmp b := by
  induction a with
  | nil => simp [splitAmp]
  | cons c t ih =>
      have hc : c ≠ '&' := fun hce => h (hce ▸ List.mem_cons_self c t)
      have ht : '&' ∉ t := fun hm => h (List.mem_cons_of_mem _ hm)
      simp [splitAmp, hc, ih ht]

/-- Splitting at the first `=` after an `=`-free key. -/
theorem splitFirstEq_append (k v : List Char) (h : '=' ∉ k) :
    splitFirstEq (k ++ '=' :: v) = (k, v) := by
  induction k with
  | nil => simp [splitFirstEq]
  | cons c t ih =>
      have hc : c ≠ '=' := fun hce => h (hce ▸ List.mem_cons_self c t)
      have ht : '=' ∉ t := fun hm => h (List.mem_cons_of_mem _ hm)
      simp [splitFirstEq, hc, ih ht]

/-- Decoding the empty component. -/
theorem pctDecode_nil : pctDecode [] = [] := by
  conv_lhs => rw [pctDecode.eq_def]

/-- Decoding inverts `quote_plus` outright on ASCII strings. -/
theorem pctDecode_qEnc_total (l : List Char) (h : ∀ c ∈ l, c.toNat < 128) :
    pctDecode (qEnc l) = l := by
  have h2 := pctDecode_qEnc l h []
  rwa [List.append_nil, pctDecode_nil, List.append_nil] at h2

/-- `&` does not occur in an encoded pair of ASCII strings. -/
theorem encPair_no_amp (p : String × String)
    (h1 : ∀ c ∈ p.1.toList, c.toNat < 128) (h2 : ∀ c ∈ p.2.toList, c.toNat < 128) :
    '&' ∉ encPair p := by
  simp only [encPair, List.mem_append, List.mem_cons]
  rintro (hm | hm | hm)
  · exact (qEnc_no_sep _ h1).1 hm
  · exact absurd hm (by decide)
  · exact (qEnc_no_sep _ h2).1 hm

/-- Decoding inverts encoding of one ASCII pair. -/
theorem decodePair_encPair (p : String × String)
    (h1 : ∀ c ∈ p.1.toList, c.toNat < 128) (h2 : ∀ c ∈ p.2.toList, c.toNat < 128) :
    decodePair (encPair p) = p := by
  unfold decodePair encPair
  rw [splitFirstEq_append _ _ (qEnc_no_sep _ h1).2]
  rw [pctDecode_qEnc_total _ h1, pctDecode_qEnc_total _ h2, strMk_toList, strMk_toList]

/-- An encoded pair is never empty (it contains its `=`). -/
theorem encPair_ne_nil (p : String × String) : encPair p ≠ [] := by
  simp [encPair]

/-- An encoded non-empty parameter list is a non-empty string. -/
theorem urlencodeChars_ne_nil (p : String × String) (ps : List (String × String)) :
    urlencodeChars (p :: ps) ≠ [] := by
  cases ps with
  | nil => exact encPair_ne_nil p
  | cons q rest => simp [urlencodeChars, encPair]

/-- `parseQS` on a non-empty query string. -/
theorem parseQS_ne_nil (l : List Char) (h : l ≠ []) :
    parseQS l = (splitAmp l).map decodePair := by
  unfold parseQS
  rw [if_neg]
  simpa using h

/-- Round trip: parsing an urlencoded ASCII parameter list returns the
original pairs. -/
theorem parseQS_urlencodeChars (ps : List (String × String))
    (h : ∀ p ∈ ps, (∀ c ∈ p.1.toList, c.toNat < 128) ∧ (∀ c ∈ p.2.toList, c.toNat < 128)) :
    parseQS (urlencodeChars ps) = ps := by
  induction ps with
  | nil => rfl
  | cons p ps ih =>
      obtain ⟨h1, h2⟩ := h p (List.mem_cons_self p ps)
      have hrest := fun q hq => h q (List.mem_cons_of_mem _ hq)
      cases ps with
      | nil =>
          rw [show urlencodeChars [p] = encPair p from rfl,
            parseQS_ne_nil _ (encPair_ne_nil p),
            splitAmp_no_amp _ (encPair_no_amp p h1 h2)]
          simp [decodePair_encPair p h1 h2]
      | cons q rest =>
          rw [show urlencodeChars (p :: q :: rest) =
              encPair p ++ '&' :: urlencodeChars (q :: rest) from rfl,
            parseQS_ne_nil _ (by simp [encPair]),
            splitAmp_append _ _ (encPair_no_amp p h1 h2)]
          simp only [List.map_cons]
          rw [decodePair_encPair p h1 h2]
          congr 1
          rw [← parseQS_ne_nil _ (urlencodeChars_ne_nil q rest)]
          exact ih hrest

/-- `afterQmark` finds the query right after the first `?`. -/
theorem afterQmark_append (pre post : List Char) (h : '?' ∉ pre) :
    afterQmark (pre ++ '?' :: post) = post := by
  induction pre with
  | nil => simp [afterQmark]
  | cons c t ih =>
      have hc : c ≠ '?' := fun hce => h (hce ▸ List.mem_cons_self c t)
      have ht : '?' ∉ t := fun hm => h (List.mem_cons_of_mem _ hm)
      simp [afterQmark, hc, ih ht]

/-- Decimal digit characters are ASCII. -/
theorem digitChar_ascii (n : Nat) : (digitChar n).toNat < 128 := by
  unfold digitChar
  repeat' split
  all_goals decide

/-- Rendered decimal digits are ASCII. -/
theorem decDigitsAux_ascii (fuel : Nat) : ∀ (n : Nat), ∀ c ∈ decDigitsAux fuel n,
    c.toNat < 128 := by
  induction fuel with
  | zero =>
      intro n c hc
      simp [decDigitsAux] at hc
  | succ f ih =>
      intro n c hc
      by_cases h : n < 10
      · simp only [decDigitsAux, if_pos h, List.mem_singleton] at hc
        subst hc
        exact digitChar_ascii n
      · simp only [decDigitsAux, if_neg h, List.mem_append, List.mem_singleton] at hc
        rcases hc with hc | hc
        · exact ih _ c hc
        · subst hc
          exact digitChar_ascii _

/-- Python's `str(n)` on a natural number is ASCII. -/
theorem decRepr_ascii (n : Nat) : ∀ c ∈ (decRepr n).toList, c.toNat < 128 := by
  intro c hc
  exact decDigitsAux_ascii (n + 1) n c hc

/-- Packaging ASCII bounds for the two components of a parameter pair. -/
theorem pair_ascii {k v : String} (hk : ∀ c ∈ k.toList, c.toNat < 128)
    (hv2 : ∀ c ∈ v.toList, c.toNat < 128) :
    (∀ c ∈ (k, v).1.toList, c.toNat < 128) ∧ (∀ c ∈ (k, v).2.toList, c.toNat < 128) :=
  ⟨hk, hv2⟩

/-- C9: `_build_pdf_url` is a pure function of its arguments, and
parsing the query string of the URL it returns yields exactly the fixed
fields, the supplied vendor id under `apVendorId[]`, the mode under
`pdf`, and the supplied period rendered in the PDF date vocabulary. -/
theorem pdf_url_roundtrip (vid mode : String) (p : Period)
    (hv : ∀ c ∈ vid.toList, c.toNat < 128) (hm : ∀ c ∈ mode.toList, c.toNat < 128)
    (hp : periodOk p) :
    parseQS (afterQmark (build_pdf_url_for vid p mode).toList) =
      [("go", "yes"), ("search", "1"), ("apVendorId[]", vid), ("rptSetupId", "434"),
        ("pdf", mode)] ++ periodPdfFields p := by
  have hq : ∀ ps : List (String × String),
      afterQmark (pdfBaseUrl ++ "?" ++ String.mk (urlencodeChars ps)).toList =
        urlencodeChars ps := by
    intro ps
    rw [strToList_append, strToList_append,
      show ("?" : String).toList = ['?'] from rfl,
      show (String.mk (urlencodeChars ps)).toList = urlencodeChars ps from rfl,
      List.append_assoc, List.singleton_append]
    exact afterQmark_append _ _ (by decide)
  cases p with
  | range s e =>
      obtain ⟨hs, he, has, hae⟩ := hp
      have hparams : pdfParams vid none none (some s) (some e) mode =
          [("go", "yes"), ("search", "1"), ("apVendorId[]", vid), ("rptSetupId", "434"),
            ("pdf", mode)] ++ periodPdfFields (.range s e) := by
        simp [pdfParams, truthyS_of_ne_empty hs, truthyS_of_ne_empty he, periodPdfFields]
      simp only [build_pdf_url_for, build_pdf_url]
      rw [hq, hparams, parseQS_urlencodeChars]
      intro q hq2
      simp only [periodPdfFields, List.append_nil, List.cons_append, List.nil_append,
        List.mem_cons, List.not_mem_nil, or_false] at hq2
      rcases hq2 with rfl | rfl | rfl | rfl | rfl | rfl | rfl | rfl | rfl | rfl | rfl <;>
        first
          | exact pair_ascii (by decide) (by decide)
          | exact pair_ascii (by decide) hv
          | exact pair_ascii (by decide) hm
          | exact pair_ascii (by decide) has
          | exact pair_ascii (by decide) hae
  | monthly m y =>
      have hm0 : truthyN (some m) = true := by
        simp only [truthyN, bne_iff_ne, ne_eq]
        exact hp
      have hparams : pdfParams vid (some m) (some y) none none mode =
          [("go", "yes"), ("search", "1"), ("apVendorId[]", vid), ("rptSetupId", "434"),
            ("pdf", mode)] ++ periodPdfFields (.monthly m y) := by
        simp [pdfParams, truthyS, hm0, strOfONat, periodPdfFields]
      simp only [build_pdf_url_for, build_pdf_url]
      rw [hq, hparams, parseQS_urlencodeChars]
      intro q hq2
      simp only [periodPdfFields, List.append_nil, List.cons_append, List.nil_append,
        List.mem_cons, List.not_mem_nil, or_false] at hq2
      rcases hq2 with rfl | rfl | rfl | rfl | rfl | rfl | rfl <;>
        first
          | exact pair_ascii (by decide) (by decide)
          | exact pair_ascii (by decide) hv
          | exact pair_ascii (by decide) hm
          | exact pair_ascii (by decide) (decRepr_ascii _)
  | yearly y =>
      have hparams : pdfParams vid none (some y) none none mode =
          [("go", "yes"), ("search", "1"), ("apVendorId[]", vid), ("rptSetupId", "434"),
            ("pdf", mode)] ++ periodPdfFields (.yearly y) := by
        simp [pdfParams, truthyS, truthyN, strOfONat, periodPdfFields]
      simp only [build_pdf_url_for, build_pdf_url]
      rw [hq, hparams, parseQS_urlencodeChars]
      intro q hq2
      simp only [periodPdfFields, List.append_nil, List.cons_append, List.nil_append,
        List.mem_cons, List.not_mem_nil, or_false] at hq2
      rcases hq2 with rfl | rfl | rfl | rfl | rfl | rfl <;>
        first
          | exact pair_ascii (by decide) (by decide)
          | exact pair_ascii (by decide) hv
          | exact pair_ascii (by decide) hm
          | exact pair_ascii (by decide) (decRepr_ascii _)

/-- C9 witness: round trip at a concrete vendor id, date-range period
and mode. -/
theorem pdf_url_roundtrip_witness :
    parseQS (afterQmark
        (build_pdf_url_for "42" (.range "01/01/2025" "12/31/2025") "download").toList) =
      [("go", "yes"), ("search", "1"), ("apVendorId[]", "42"), ("rptSetupId", "434"),
        ("pdf", "download")] ++ periodPdfFields (.range "01/01/2025" "12/31/2025") :=
  pdf_url_roundtrip "42" "download" (.range "01/01/2025" "12/31/2025")
    (by decide) (by decide) ⟨by decide, by decide, by decide, by decide⟩
